import Mathlib

/-!
# Verification of the easyrsa PKI core (`pki.go`)

A shallow embedding of the core of the `go-easyrsa` package: the
certificate-template construction (`NewCa`, `NewCert`), group extraction
(`ExtractGroups`), and the revocation engine (`RevokeOne`, `IsRevoked`,
`GetCRL`, `removeDups`), together with theorems checking the
natural-language specification against it.

Modelling conventions:

* Serial numbers are Go `*big.Int` values, embedded as `Int`.
  Go's `big.Int.Int64` (used by `removeDups` for its seen-map key) is
  embedded by `bigIntInt64`, which reproduces the gc implementation:
  the low 64 bits of the absolute value, reinterpreted as a
  two's-complement `int64`, negated for negative inputs.
* Time is embedded as `Int` minutes (the source only ever adds constant
  durations to `time.Now()`, so only the offsets matter).
* PEM / DER encoding, RSA key generation and signature creation are
  external-library calls outside the core; a stored pair carries the
  result of `Decode()` directly (`decoded : Option Certificate`, with
  `none` embedding a pair whose PEM bytes fail to parse), and a signed
  CRL is embedded as its parsed content (`CertificateList`) together
  with the serial of the authority pair whose key signed it.
* The `KeyStorage` collaborator is not under `src/`; it is modelled
  from the spec's collaborator contract (§6): an insertion-ordered list
  of pairs, `GetLastByCn` returning the most recently stored pair for a
  name, `GetByCN` returning every pair for a name (an empty list, not
  an error, when there are none).  The `CRLHolder` collaborator is
  modelled by the result its `Get` would return (`CRLGet`), so that
  both its "not found" and its generic-failure outcomes are states.
-/

namespace EasyRSA

/-! ## Serial numbers and Go's `big.Int.Int64` truncation -/

/-- `2 ^ 63` as an integer, the `int64` sign boundary. -/
def twoPow63 : Int := 9223372036854775808

/-- `2 ^ 64` as an integer, the `int64` wrap modulus. -/
def twoPow64 : Int := 18446744073709551616

/-- Go `math/big` `(*Int).Int64` as implemented by gc: take the low 64
bits of the absolute value, reinterpret them as a two's-complement
`int64`, and negate if the receiver is negative. -/
def bigIntInt64 (n : Int) : Int :=
  let low : Int := (n.natAbs % 18446744073709551616 : Nat)
  let v : Int := if low < twoPow63 then low else low - twoPow64
  if n < 0 then -v else v

/-! ## Certificates: the template fields the core sets -/

/-- Go `x509.KeyUsageDigitalSignature`. -/
def keyUsageDigitalSignature : Nat := 1

/-- Go `x509.KeyUsageKeyEncipherment`. -/
def keyUsageKeyEncipherment : Nat := 4

/-- Go `x509.KeyUsageKeyAgreement`. -/
def keyUsageKeyAgreement : Nat := 16

/-- Go `x509.KeyUsageCertSign`. -/
def keyUsageCertSign : Nat := 32

/-- Go `x509.KeyUsageCRLSign`. -/
def keyUsageCRLSign : Nat := 64

/-- The extended-key-usage values the core uses. -/
inductive ExtKeyUsageKind where
  | clientAuth
  | serverAuth
deriving DecidableEq, Repr

/-- An ASN.1 bit string (`asn1.BitString`): the payload of the
nsCertType extension before DER marshalling. -/
structure BitStringVal where
  bytes : List Nat
  bitLength : Nat
deriving DecidableEq, Repr

/-- A `pkix.Extension`: an OID paired with its (pre-marshal) value. -/
structure ExtraExt where
  id : List Nat
  value : BitStringVal
deriving DecidableEq, Repr

/-- The fields of Go's `x509.Certificate` template that `NewCa` and
`NewCert` populate.  Fields Go leaves at their zero value appear here
with that zero value made explicit (`isCA := false`, empty lists). -/
structure Certificate where
  serialNumber : Int
  subjectCommonName : String
  notBefore : Int
  notAfter : Int
  basicConstraintsValid : Bool
  isCA : Bool
  keyUsage : Nat
  extKeyUsage : List ExtKeyUsageKind
  dnsNames : List String
  ipAddresses : List (List Nat)
  excludedDNSDomains : List String
  extraExtensions : List ExtraExt
deriving DecidableEq, Repr

/-- The vendor (Netscape) OID `2.16.840.1.113730.1.1` carrying the
nsCertType role marker. -/
def nsCertTypeOid : List Nat := [2, 16, 840, 1, 113730, 1, 1]

/-- `asn1.BitString{Bytes: []byte{0x80}, BitLength: 2}`: the client
role discriminator. -/
def nsCertTypeClientVal : BitStringVal := ⟨[0x80], 2⟩

/-- `asn1.BitString{Bytes: []byte{0x40}, BitLength: 2}`: the server
role discriminator. -/
def nsCertTypeServerVal : BitStringVal := ⟨[0x40], 2⟩

/-- The certificate template `NewCert` builds (pki.go lines 138-174):
the client-flavoured template is built first and the `server` branch
then overrides key usage, extended key usage and the nsCertType
extension value. -/
def newCertTemplate (cn : String) (server : Bool) (groups : List String)
    (serial now : Int) : Certificate :=
  let tml : Certificate :=
    { notBefore := now - 10
      notAfter := now + 99 * 365 * 24 * 60
      serialNumber := serial
      subjectCommonName := cn
      keyUsage := keyUsageDigitalSignature ||| keyUsageKeyAgreement
      extKeyUsage := [.clientAuth]
      basicConstraintsValid := true
      isCA := false
      dnsNames := [cn]
      ipAddresses := [[127, 0, 0, 1]]
      excludedDNSDomains := groups
      extraExtensions := [⟨nsCertTypeOid, nsCertTypeClientVal⟩] }
  if server then
    { tml with
      keyUsage := keyUsageDigitalSignature ||| keyUsageKeyAgreement |||
        keyUsageKeyEncipherment
      extKeyUsage := [.serverAuth]
      extraExtensions := [⟨nsCertTypeOid, nsCertTypeServerVal⟩] }
  else tml

/-- The self-signed CA template `NewCa` builds (pki.go lines 84-92).
`DefaultExpireYears` lives in a constants file that is not under
`src/`; it is taken as the parameter `defaultExpireYears`
(the spec's "configured authority lifetime"). -/
def newCaTemplate (serial now defaultExpireYears : Int) : Certificate :=
  { serialNumber := serial
    subjectCommonName := "ca"
    notBefore := now - 10
    notAfter := now + defaultExpireYears * 365 * 24 * 60
    basicConstraintsValid := true
    isCA := true
    keyUsage := keyUsageDigitalSignature ||| keyUsageCertSign ||| keyUsageCRLSign
    extKeyUsage := []
    dnsNames := []
    ipAddresses := []
    excludedDNSDomains := []
    extraExtensions := [] }

/-- `ExtractGroups` (pki.go lines 289-294): return the
`ExcludedDNSDomains` list when non-empty, otherwise the
"No groups in certificate" error. -/
def extractGroups (cert : Certificate) : Except String (List String) :=
  if cert.excludedDNSDomains.length > 0 then .ok cert.excludedDNSDomains
  else .error "No groups in certificate"

/-! ## Pairs, storage and the CRL holder -/

/-- `X509Pair`: common name, serial, and the outcome of `Decode()` on
its PEM bytes (`none` embeds a pair whose bytes fail to parse; the
private-key half of `Decode`'s result is opaque to every claim and is
not carried). -/
structure X509Pair where
  cn : String
  serial : Int
  decoded : Option Certificate
deriving DecidableEq, Repr

/-- A `pkix.RevokedCertificate`: revoked serial plus revocation time. -/
structure RevokedCertificate where
  serialNumber : Int
  revocationTime : Int
deriving DecidableEq, Repr

/-- The `TBSCertList` part of a parsed CRL: its revoked entries. -/
structure TBSCertList where
  revokedCertificates : List RevokedCertificate
deriving DecidableEq, Repr

/-- A parsed, signed CRL (`pkix.CertificateList`), together with the
serial of the authority pair whose key produced the signature
(`CreateCRL` is called on that pair's certificate and key). -/
structure CertificateList where
  tbsCertList : TBSCertList
  signerSerial : Int
deriving DecidableEq, Repr

/-- What the `CRLHolder` collaborator's `Get` returns: either the
current CRL, or "none has been written yet" (`notFound`), or any other
read failure (`storeFailure`). -/
inductive CRLErr where
  | notFound
  | storeFailure
deriving DecidableEq, Repr

/-- Result of `CRLHolder.Get` / `PKI.GetCRL`. -/
inductive CRLGet where
  | ok (crl : CertificateList)
  | err (e : CRLErr)
deriving DecidableEq, Repr

/-- The state the PKI core reads and writes: the key storage (pairs in
insertion order) and the CRL holder (modelled by what its `Get`
returns). -/
structure PKIState where
  pairs : List X509Pair
  crl : CRLGet
deriving DecidableEq, Repr

/-- Modelled from the spec: `Storage.GetByCN(name)` returns every pair
ever stored for `name` (the `KeyStorage` implementation is not under
`src/`; §6 gives its contract, with no error for an empty result). -/
def getByCN (st : PKIState) (name : String) : List X509Pair :=
  st.pairs.filter (fun p => p.cn == name)

/-- Modelled from the spec: `Storage.GetLastByCn(name)` returns the
most recently stored pair for `name`, and nothing when none exists. -/
def getLastByCn (st : PKIState) (name : String) : Option X509Pair :=
  (st.pairs.filter (fun p => p.cn == name)).getLast?

/-- `PKI.GetCRL` (pki.go lines 202-204): a passthrough to
`crlHolder.Get()`, propagating whatever it returns. -/
def getCRL (st : PKIState) : CRLGet := st.crl

/-- `PKI.GetLastCA` (pki.go lines 207-209). -/
def getLastCA (st : PKIState) : Option X509Pair := getLastByCn st "ca"

/-! ## The revocation engine -/

/-- `removeDups` (pki.go lines 277-287): walk the list keeping a
`map[int64]bool` of serials already seen, keyed by
`cert.SerialNumber.Int64()` — i.e. by the 64-bit truncation — and keep
the first occurrence for each key.  The seen-map is embedded as a list
of keys queried with `elem`. -/
def removeDups (list : List RevokedCertificate) : List RevokedCertificate :=
  (list.foldl
    (fun (st : List Int × List RevokedCertificate) cert =>
      if st.1.elem (bigIntInt64 cert.serialNumber) then st
      else (bigIntInt64 cert.serialNumber :: st.1, st.2 ++ [cert]))
    ([], [])).2

/-- Go's `sort.Slice(caPairs, func(i, j) { return caPairs[i].Serial.Cmp(caPairs[j].Serial) == 1 })`:
insert into a descending-by-serial sorted list. -/
def insertBySerialDesc (p : X509Pair) : List X509Pair → List X509Pair
  | [] => [p]
  | q :: rest =>
    if q.serial < p.serial then p :: q :: rest else q :: insertBySerialDesc p rest

/-- Sort descending by serial (the order `RevokeOne` puts `caPairs`
in before taking index 0). -/
def sortBySerialDesc : List X509Pair → List X509Pair
  | [] => []
  | p :: rest => insertBySerialDesc p (sortBySerialDesc rest)

/-- Errors `RevokeOne` can return.  The storage read, CRL signing and
CRL write failure branches of the source wrap collaborator failures;
the modelled collaborators are total, so the only failing branch left
is the authority pair failing to decode. -/
inductive RevokeErr where
  | decodeCAFailed
deriving DecidableEq, Repr

/-- Outcome of `RevokeOne`: a new state, an error, or a Go runtime
panic (index out of range). -/
inductive RevokeOutcome where
  | ok (st : PKIState)
  | err (e : RevokeErr)
  | panicked
deriving DecidableEq, Repr

/-- The revoked-entry list `RevokeOne` starts from (its local `list`,
pki.go lines 213-216): the old CRL's entries when `GetCRL` succeeds,
and the empty list on ANY `GetCRL` error. -/
def priorRevoked (st : PKIState) : List RevokedCertificate :=
  match getCRL st with
  | .ok oldList => oldList.tbsCertList.revokedCertificates
  | .err _ => []

/-- `PKI.RevokeOne` (pki.go lines 212-246): start from the old CRL's
entries when `GetCRL` succeeds and from the empty list on ANY error;
sort all "ca" pairs descending by serial and decode the first —
indexing `caPairs[0]` panics when the list is empty; append
`(serial, now)`; dedupe with `removeDups`; sign and store the new
CRL. -/
def revokeOne (st : PKIState) (serial now : Int) : RevokeOutcome :=
  let list : List RevokedCertificate := priorRevoked st
  match sortBySerialDesc (getByCN st "ca") with
  | [] => .panicked
  | ca :: _ =>
    match ca.decoded with
    | none => .err .decodeCAFailed
    | some _caCert =>
      let newCrl : CertificateList :=
        ⟨⟨removeDups (list ++ [⟨serial, now⟩])⟩, ca.serial⟩
      .ok { st with crl := .ok newCrl }

/-- `PKI.IsRevoked` (pki.go lines 264-275): any `GetCRL` failure is
replaced by the zero-value (empty) CRL; then a linear scan comparing
serials with `Cmp` (full-precision equality). -/
def isRevoked (st : PKIState) (serial : Int) : Bool :=
  let revokedCerts : CertificateList :=
    match getCRL st with
    | .ok c => c
    | .err _ => ⟨⟨[]⟩, 0⟩
  revokedCerts.tbsCertList.revokedCertificates.any
    (fun cert => cert.serialNumber == serial)

/-! ## Issuance -/

/-- Errors `NewCert` can return before signing. -/
inductive NewCertErr where
  | noCA
  | caCorrupt
deriving DecidableEq, Repr

/-- Outcome of `NewCert`: the stored pair, the CA pair that signed it,
and the new storage state — or an error. -/
inductive NewCertOutcome where
  | ok (pair : X509Pair) (signer : X509Pair) (st : PKIState)
  | err (e : NewCertErr)
deriving DecidableEq, Repr

/-- `PKI.NewCert` (pki.go lines 118-199): fetch the last CA pair
(`GetLastCA`), decode it, build the leaf template, sign it with the CA
key, and store the resulting pair.  Key generation and signing are
external-library calls that the claims never inspect; the stored
pair's `decoded` field carries the template the signed certificate
parses back to.  `serial` and `now` stand for `serialProvider.Next()`
and `time.Now()`. -/
def newCert (st : PKIState) (cn : String) (server : Bool)
    (groups : List String) (serial now : Int) : NewCertOutcome :=
  match getLastCA st with
  | none => .err .noCA
  | some caPair =>
    match caPair.decoded with
    | none => .err .caCorrupt
    | some _caCert =>
      let tml := newCertTemplate cn server groups serial now
      let res : X509Pair := ⟨cn, serial, some tml⟩
      .ok res caPair { st with pairs := st.pairs ++ [res] }

/-- `PKI.NewCa` (pki.go lines 68-115): build the self-signed CA
template, and store the pair under common name "ca". -/
def newCa (st : PKIState) (serial now defaultExpireYears : Int) :
    X509Pair × PKIState :=
  let tml := newCaTemplate serial now defaultExpireYears
  let res : X509Pair := ⟨"ca", serial, some tml⟩
  (res, { st with pairs := st.pairs ++ [res] })

/-! ## Concrete fixtures used by witnesses and counterexamples -/

/-- A well-formed authority pair with serial 7. -/
def caPairEx : X509Pair := ⟨"ca", 7, some (newCaTemplate 7 0 10)⟩

/-- A state holding one authority pair and no CRL yet. -/
def stEx : PKIState := ⟨[caPairEx], .err .notFound⟩

/-- `2 ^ 64 + 1`: a serial distinct from 1 whose low 64 bits equal 1,
so `bigIntInt64` maps both to the same key. -/
def serialHuge : Int := 18446744073709551617

/-- The state reached from `stEx` after revoking serial 1: its CRL
holds the single entry (1, 0). -/
def stAfterOne : PKIState := ⟨[caPairEx], .ok ⟨⟨[⟨1, 0⟩]⟩, 7⟩⟩

/-- A state whose CRL already holds an entry for serial 1 (revoked at
time 5). -/
def stOneRevoked : PKIState := ⟨[caPairEx], .ok ⟨⟨[⟨1, 5⟩]⟩, 7⟩⟩

/-- An authority pair whose PEM bytes fail to decode. -/
def caPairCorrupt : X509Pair := ⟨"ca", 4, none⟩

/-- The state reached from `stEx` after revoking serial 5 at time 0;
revoking serial 5 again maps it to itself. -/
def stIdem1 : PKIState := ⟨[caPairEx], .ok ⟨⟨[⟨5, 0⟩]⟩, 7⟩⟩

/-- A state whose CRL holder fails with a generic (non-NotFound) read
error. -/
def stFailedStore : PKIState := ⟨[caPairEx], .err .storeFailure⟩

/-- The state `revokeOne` produces from `stFailedStore`: it succeeds,
silently starting from the empty revoked set. -/
def stAfterFailedStore : PKIState := ⟨[caPairEx], .ok ⟨⟨[⟨5, 2⟩]⟩, 7⟩⟩

/-- The leaf pair `NewCert` issues from `stEx` for "svc" with groups
["ops", "db"]. -/
def leafPairEx : X509Pair := ⟨"svc", 8, some (newCertTemplate "svc" false ["ops", "db"] 8 0)⟩

/-- Storage state after issuing `leafPairEx`. -/
def stLeafEx : PKIState := ⟨[caPairEx, leafPairEx], .err .notFound⟩

/-- The leaf pair `NewCert` issues from `stEx` for "svc2" with an
empty group list. -/
def leafPairEmpty : X509Pair := ⟨"svc2", 9, some (newCertTemplate "svc2" true [] 9 0)⟩

/-- Storage state after issuing `leafPairEmpty`. -/
def stLeafEmpty : PKIState := ⟨[caPairEx, leafPairEmpty], .err .notFound⟩

/-- An authority pair with serial 3 stored AFTER `caPairEx` (serial
7): creation order and serial order disagree, so the two
authority-selection rules pick different pairs. -/
def caLateLow : X509Pair := ⟨"ca", 3, some (newCaTemplate 3 1 10)⟩

/-- A state holding both authority pairs, `caPairEx` first. -/
def stTwoCAs : PKIState := ⟨[caPairEx, caLateLow], .err .notFound⟩

/-- The leaf pair `NewCert` issues from `stTwoCAs`. -/
def leafTwoCAs : X509Pair := ⟨"svc", 9, some (newCertTemplate "svc" false [] 9 0)⟩

/-- Storage state after issuing `leafTwoCAs` from `stTwoCAs`. -/
def stTwoCAsLeaf : PKIState := ⟨[caPairEx, caLateLow, leafTwoCAs], .err .notFound⟩

/-- The state `revokeOne` produces from `stTwoCAs`: the CRL is signed
by the highest-serial authority (serial 7), not the most recent
(serial 3). -/
def stTwoCAsRev : PKIState := ⟨[caPairEx, caLateLow], .ok ⟨⟨[⟨5, 0⟩]⟩, 7⟩⟩

/-! ## Helper lemmas -/

/-- Inversion for a successful `revokeOne`: there is a decodable
authority at the head of the descending sort, and the new state's CRL
holds the deduped old-entries-plus-new-entry list, signed with that
authority's key. -/
theorem revokeOne_ok_elim (st st2 : PKIState) (s t : Int)
    (h : revokeOne st s t = RevokeOutcome.ok st2) :
    ∃ ca rest c0, sortBySerialDesc (getByCN st "ca") = ca :: rest ∧
      ca.decoded = some c0 ∧
      st2 = { st with crl := CRLGet.ok ⟨⟨removeDups (priorRevoked st ++ [⟨s, t⟩])⟩, ca.serial⟩ } := by
  rcases hsort : sortBySerialDesc (getByCN st "ca") with _ | ⟨ca, rest⟩
  · simp [revokeOne, hsort] at h
  rcases hdec : ca.decoded with _ | c0
  · simp [revokeOne, hsort, hdec] at h
  simp only [revokeOne, hsort, hdec, RevokeOutcome.ok.injEq] at h
  exact ⟨ca, rest, c0, rfl, hdec, h.symm⟩

/-- Membership in `insertBySerialDesc`: the inserted element plus the
old elements. -/
theorem mem_insertBySerialDesc (p x : X509Pair) (l : List X509Pair) :
    x ∈ insertBySerialDesc p l ↔ x = p ∨ x ∈ l := by
  induction l with
  | nil => simp [insertBySerialDesc]
  | cons q rest ih =>
    by_cases h : q.serial < p.serial
    · simp [insertBySerialDesc, h]
    · simp [insertBySerialDesc, h, ih]
      tauto

/-- `insertBySerialDesc` preserves descending sortedness. -/
theorem descSorted_insertBySerialDesc (p : X509Pair) (l : List X509Pair)
    (h : List.Pairwise (fun a b : X509Pair => b.serial ≤ a.serial) l) :
    List.Pairwise (fun a b : X509Pair => b.serial ≤ a.serial)
      (insertBySerialDesc p l) := by
  induction l with
  | nil => simp [insertBySerialDesc]
  | cons q rest ih =>
    rcases List.pairwise_cons.mp h with ⟨hq, hrest⟩
    by_cases hlt : q.serial < p.serial
    · rw [insertBySerialDesc, if_pos hlt]
      refine List.pairwise_cons.mpr ⟨?_, h⟩
      intro y hy
      rcases List.mem_cons.mp hy with rfl | hmem
      · exact le_of_lt hlt
      · exact (hq y hmem).trans (le_of_lt hlt)
    · rw [insertBySerialDesc, if_neg hlt]
      refine List.pairwise_cons.mpr ⟨?_, ih hrest⟩
      intro y hy
      rcases (mem_insertBySerialDesc p y rest).mp hy with rfl | hmem
      · exact not_lt.mp hlt
      · exact hq y hmem

/-- `sortBySerialDesc` neither adds nor removes elements. -/
theorem mem_sortBySerialDesc (l : List X509Pair) (x : X509Pair) :
    x ∈ sortBySerialDesc l ↔ x ∈ l := by
  induction l with
  | nil => simp [sortBySerialDesc]
  | cons p rest ih => simp [sortBySerialDesc, mem_insertBySerialDesc, ih]

/-- `sortBySerialDesc` produces a descending-by-serial list. -/
theorem descSorted_sortBySerialDesc (l : List X509Pair) :
    List.Pairwise (fun a b : X509Pair => b.serial ≤ a.serial)
      (sortBySerialDesc l) := by
  induction l with
  | nil => simp [sortBySerialDesc]
  | cons p rest ih => exact descSorted_insertBySerialDesc p _ ih

/-- The head of the descending sort is an element of the input of
maximal serial. -/
theorem sortBySerialDesc_head_max (l : List X509Pair) (ca : X509Pair)
    (rest : List X509Pair) (h : sortBySerialDesc l = ca :: rest) :
    ca ∈ l ∧ ∀ q ∈ l, q.serial ≤ ca.serial := by
  have hmem : ca ∈ l := (mem_sortBySerialDesc l ca).mp (h ▸ List.mem_cons_self ca rest)
  refine ⟨hmem, ?_⟩
  intro q hq
  have hq2 : q ∈ ca :: rest := h ▸ (mem_sortBySerialDesc l q).mpr hq
  rcases List.mem_cons.mp hq2 with rfl | hmem2
  · exact le_refl _
  · have hsorted := descSorted_sortBySerialDesc l
    rw [h] at hsorted
    exact (List.pairwise_cons.mp hsorted).1 q hmem2

/-! ## Claim theorems -/

/-- C6: role encoding.  With `isServer = false` the template's key
usage is exactly digital signature and key agreement, its extended key
usage is exactly client authentication, and its vendor extension
carries the client discriminator byte; with `isServer = true` the key
usage is exactly digital signature, key agreement and key
encipherment, the extended key usage is exactly server authentication,
and the same vendor OID carries a different server discriminator
byte. -/
theorem newCert_role_encoding (cn : String) (groups : List String) (serial now : Int) :
    (newCertTemplate cn false groups serial now).keyUsage =
        (keyUsageDigitalSignature ||| keyUsageKeyAgreement) ∧
    (newCertTemplate cn false groups serial now).extKeyUsage =
        [ExtKeyUsageKind.clientAuth] ∧
    (newCertTemplate cn false groups serial now).extraExtensions =
        [⟨nsCertTypeOid, nsCertTypeClientVal⟩] ∧
    (newCertTemplate cn true groups serial now).keyUsage =
        (keyUsageDigitalSignature ||| keyUsageKeyAgreement ||| keyUsageKeyEncipherment) ∧
    (newCertTemplate cn true groups serial now).extKeyUsage =
        [ExtKeyUsageKind.serverAuth] ∧
    (newCertTemplate cn true groups serial now).extraExtensions =
        [⟨nsCertTypeOid, nsCertTypeServerVal⟩] ∧
    nsCertTypeClientVal.bytes ≠ nsCertTypeServerVal.bytes :=
  ⟨rfl, rfl, rfl, rfl, rfl, rfl, by decide⟩

/-- C9: backdating.  Both `NewCa` and `NewCert` set `NotBefore` to the
current time minus exactly 10 minutes, and `NewCert` sets `NotAfter`
to now plus 99 years (99 × 365 × 24 hours), so the leaf validity
window is [now − 10 minutes, now + 99 years]. -/
theorem certificates_backdated_ten_minutes (caSerial caNow expireYears : Int)
    (cn : String) (server : Bool) (groups : List String) (serial now : Int) :
    (newCaTemplate caSerial caNow expireYears).notBefore = caNow - 10 ∧
    (newCertTemplate cn server groups serial now).notBefore = now - 10 ∧
    (newCertTemplate cn server groups serial now).notAfter =
        now + 99 * 365 * 24 * 60 := by
  cases server <;> exact ⟨rfl, rfl, rfl⟩

/-- C10: every leaf template built by `NewCert` has
`BasicConstraintsValid` set and `IsCA` false (for either role and any
groups), while `NewCa` is the only constructor producing `IsCA`
true. -/
theorem newCert_never_authority (cn : String) (server : Bool) (groups : List String)
    (serial now caSerial caNow expireYears : Int) :
    (newCertTemplate cn server groups serial now).basicConstraintsValid = true ∧
    (newCertTemplate cn server groups serial now).isCA = false ∧
    (newCaTemplate caSerial caNow expireYears).isCA = true := by
  cases server <;> exact ⟨rfl, rfl, rfl⟩

/-- C1: the dedup comparison is NOT full precision.  The serials 1 and
`2 ^ 64 + 1` are distinct, but after revoking 1 and then `2 ^ 64 + 1`
(both calls succeeding) the CRL's revoked set still holds only the
entry for 1: `removeDups` keys its seen-map on
`SerialNumber.Int64()`, so the second serial's entry is dropped by the
machine-word-truncated comparison. -/
theorem revokeOne_dedup_truncates_serials :
    (1 : Int) ≠ serialHuge ∧
    bigIntInt64 1 = bigIntInt64 serialHuge ∧
    revokeOne stEx 1 0 = RevokeOutcome.ok stAfterOne ∧
    revokeOne stAfterOne serialHuge 1 = RevokeOutcome.ok stAfterOne ∧
    (match stAfterOne.crl with
     | .ok c => c.tbsCertList.revokedCertificates.map (fun r => r.serialNumber)
     | .err _ => []) = [1] := by decide

/-- C2: `IsRevoked` does not reflect ground truth after every
successful `RevokeOne`.  Starting from a CRL holding serial 1,
`RevokeOne (2 ^ 64 + 1)` returns success but leaves the CRL unchanged
(the new entry is dropped by the truncated dedup), so
`IsRevoked (2 ^ 64 + 1)` is still false.  The no-CRL case does return
false as claimed. -/
theorem isRevoked_false_after_successful_revokeOne :
    revokeOne stOneRevoked serialHuge 5 = RevokeOutcome.ok stOneRevoked ∧
    isRevoked stOneRevoked serialHuge = false ∧
    isRevoked stEx serialHuge = false := by decide

/-- C3: when the storage holds no "ca" pair, `RevokeOne` panics
(indexing `caPairs[0]` on an empty slice) instead of returning an
`AuthorityUnavailable` error; when the single authority pair fails to
decode it does return the decode error. -/
theorem revokeOne_panics_without_authority :
    getByCN (⟨[], CRLGet.err .notFound⟩ : PKIState) "ca" = [] ∧
    revokeOne (⟨[], CRLGet.err .notFound⟩ : PKIState) 5 0 =
        RevokeOutcome.panicked ∧
    revokeOne (⟨[caPairCorrupt], CRLGet.err .notFound⟩ : PKIState) 5 0 =
        RevokeOutcome.err RevokeErr.decodeCAFailed := by decide

/-- C4: revocation idempotence.  Starting from a state with no CRL,
two successful `RevokeOne` calls for the same serial `s` leave a CRL
whose revoked set is exactly one entry with serial `s` (the second
occurrence is dropped by `removeDups`, which keeps the first). -/
theorem revokeOne_idempotent (st st1 st2 : PKIState) (s t1 t2 : Int) (e : CRLErr)
    (hcrl : st.crl = CRLGet.err e)
    (h1 : revokeOne st s t1 = RevokeOutcome.ok st1)
    (h2 : revokeOne st1 s t2 = RevokeOutcome.ok st2) :
    ∃ c, st2.crl = CRLGet.ok c ∧
      c.tbsCertList.revokedCertificates.map (fun r => r.serialNumber) = [s] := by
  obtain ⟨ca, rest, c0, hsort, hdec, hst1⟩ := revokeOne_ok_elim st st1 s t1 h1
  have hprior1 : priorRevoked st = [] := by simp [priorRevoked, getCRL, hcrl]
  rw [hprior1] at hst1
  have hrd1 : removeDups ([] ++ [⟨s, t1⟩]) = [⟨s, t1⟩] := by simp [removeDups]
  rw [hrd1] at hst1
  obtain ⟨ca2, rest2, c02, hsort2, hdec2, hst2⟩ := revokeOne_ok_elim st1 st2 s t2 h2
  have hby : getByCN st1 "ca" = getByCN st "ca" := by rw [hst1]; simp [getByCN]
  rw [hby, hsort] at hsort2
  injection hsort2 with hca hrest
  subst hca
  have hprior2 : priorRevoked st1 = [⟨s, t1⟩] := by rw [hst1]; simp [priorRevoked, getCRL]
  rw [hprior2] at hst2
  have hrd2 : removeDups ([(⟨s, t1⟩ : RevokedCertificate)] ++ [⟨s, t2⟩]) = [⟨s, t1⟩] := by
    simp [removeDups]
  rw [hrd2] at hst2
  refine ⟨⟨⟨[⟨s, t1⟩]⟩, ca.serial⟩, ?_, by simp⟩
  rw [hst2]

/-- Witness for C4 at serial 5: both calls from `stEx` succeed and
produce `stIdem1`, whose revoked set is exactly one entry for 5. -/
theorem revokeOne_idempotent_witness :
    ∃ c, stIdem1.crl = CRLGet.ok c ∧
      c.tbsCertList.revokedCertificates.map (fun r => r.serialNumber) = [5] :=
  revokeOne_idempotent stEx stIdem1 stIdem1 5 0 1 CRLErr.notFound rfl (by decide) (by decide)

/-- C5: the two authority-selection rules.  Whenever `NewCert`
succeeds, its signer is exactly the pair `GetLastByCn "ca"` returns —
the most recently stored "ca" pair; whenever `RevokeOne` succeeds,
the CRL it stores is signed by a stored "ca" pair whose serial is
numerically highest among all "ca" pairs. -/
theorem authority_selection_rules (st : PKIState) (cn : String) (server : Bool)
    (groups : List String) (serial now s t : Int) :
    (∀ pair signer st2,
        newCert st cn server groups serial now = NewCertOutcome.ok pair signer st2 →
        getLastByCn st "ca" = some signer ∧
        (getByCN st "ca").getLast? = some signer) ∧
    (∀ st2, revokeOne st s t = RevokeOutcome.ok st2 →
        ∃ c, st2.crl = CRLGet.ok c ∧
          (∃ q ∈ getByCN st "ca", q.serial = c.signerSerial) ∧
          ∀ q ∈ getByCN st "ca", q.serial ≤ c.signerSerial) := by
  constructor
  · intro pair signer st2 hok
    rcases hlast : getLastCA st with _ | caPair
    · simp [newCert, hlast] at hok
    rcases hdec : caPair.decoded with _ | c0
    · simp [newCert, hlast, hdec] at hok
    simp only [newCert, hlast, hdec, NewCertOutcome.ok.injEq] at hok
    obtain ⟨-, hsigner, -⟩ := hok
    subst hsigner
    exact ⟨hlast, hlast⟩
  · intro st2 hok
    obtain ⟨ca, rest, c0, hsort, hdec, hst2⟩ := revokeOne_ok_elim st st2 s t hok
    obtain ⟨hmem, hmax⟩ := sortBySerialDesc_head_max _ ca rest hsort
    exact ⟨⟨⟨removeDups (priorRevoked st ++ [⟨s, t⟩])⟩, ca.serial⟩, by rw [hst2],
      ⟨ca, hmem, rfl⟩, hmax⟩

/-- Witness for C5 on a state where creation order and serial order
disagree: `NewCert` signs with the most recently stored pair (serial
3) while `RevokeOne` signs the CRL with the highest-serial pair
(serial 7). -/
theorem authority_selection_rules_witness :
    (getLastByCn stTwoCAs "ca" = some caLateLow ∧
      (getByCN stTwoCAs "ca").getLast? = some caLateLow) ∧
    (∃ c, stTwoCAsRev.crl = CRLGet.ok c ∧
      (∃ q ∈ getByCN stTwoCAs "ca", q.serial = c.signerSerial) ∧
      ∀ q ∈ getByCN stTwoCAs "ca", q.serial ≤ c.signerSerial) :=
  ⟨(authority_selection_rules stTwoCAs "svc" false [] 9 0 5 0).1 leafTwoCAs caLateLow
      stTwoCAsLeaf (by decide),
   (authority_selection_rules stTwoCAs "svc" false [] 9 0 5 0).2 stTwoCAsRev (by decide)⟩

/-- C7: group round-trip.  Whenever `NewCert` succeeds, the issued
certificate's `ExtractGroups` returns the requested group list
unchanged when it is non-empty, and fails with the "No groups in
certificate" error when it is empty. -/
theorem newCert_groups_roundtrip (st : PKIState) (cn : String) (server : Bool)
    (groups : List String) (serial now : Int) (pair signer : X509Pair) (st2 : PKIState)
    (hok : newCert st cn server groups serial now = NewCertOutcome.ok pair signer st2) :
    (groups ≠ [] → ∃ tml, pair.decoded = some tml ∧
        extractGroups tml = Except.ok groups) ∧
    (groups = [] → ∃ tml, pair.decoded = some tml ∧
        extractGroups tml = Except.error "No groups in certificate") := by
  rcases hlast : getLastCA st with _ | caPair
  · simp [newCert, hlast] at hok
  rcases hdec : caPair.decoded with _ | c0
  · simp [newCert, hlast, hdec] at hok
  simp only [newCert, hlast, hdec, NewCertOutcome.ok.injEq] at hok
  obtain ⟨hpair, -, -⟩ := hok
  have hexc : (newCertTemplate cn server groups serial now).excludedDNSDomains = groups := by
    cases server <;> rfl
  constructor
  · intro hne
    refine ⟨newCertTemplate cn server groups serial now, by rw [← hpair], ?_⟩
    simp [extractGroups, hexc, List.length_pos, hne]
  · intro hempty
    refine ⟨newCertTemplate cn server groups serial now, by rw [← hpair], ?_⟩
    subst hempty
    simp [extractGroups, hexc]

/-- Witness for C7: issuing "svc" with groups ["ops", "db"] and then
extracting returns ["ops", "db"]; issuing "svc2" with no groups and
then extracting fails. -/
theorem newCert_groups_roundtrip_witness :
    (∃ tml, leafPairEx.decoded = some tml ∧
        extractGroups tml = Except.ok ["ops", "db"]) ∧
    (∃ tml, leafPairEmpty.decoded = some tml ∧
        extractGroups tml = Except.error "No groups in certificate") :=
  ⟨(newCert_groups_roundtrip stEx "svc" false ["ops", "db"] 8 0 leafPairEx caPairEx
      stLeafEx (by decide)).1 (by decide),
   (newCert_groups_roundtrip stEx "svc2" true [] 9 0 leafPairEmpty caPairEx
      stLeafEmpty (by decide)).2 rfl⟩

/-- C8 counterexample: a generic (non-NotFound) CRL-store read failure
is NOT propagated by `RevokeOne` — the call succeeds, silently
starting from the empty revoked set, contradicting the claim that any
failure other than "no prior CRL" is returned as an error. -/
theorem revokeOne_swallows_crl_load_failure :
    stFailedStore.crl = CRLGet.err CRLErr.storeFailure ∧
    CRLErr.storeFailure ≠ CRLErr.notFound ∧
    revokeOne stFailedStore 5 2 = RevokeOutcome.ok stAfterFailedStore := by decide

/-- C8 (amended): `RevokeOne` starts from the empty revoked set
whenever loading the current CRL fails, whatever the failure (NotFound
or any other error); no load failure is propagated.  `GetCRL` itself
is a passthrough that propagates the store's error, NotFound
included. -/
theorem revokeOne_starts_empty_on_any_crl_error (st : PKIState) (s t : Int) (e : CRLErr)
    (h : st.crl = CRLGet.err e) :
    getCRL st = CRLGet.err e ∧
    ∀ st2, revokeOne st s t = RevokeOutcome.ok st2 →
      ∃ c, st2.crl = CRLGet.ok c ∧
        c.tbsCertList.revokedCertificates = [⟨s, t⟩] := by
  refine ⟨h, ?_⟩
  intro st2 h2
  obtain ⟨ca, rest, c0, hsort, hdec, hst2⟩ := revokeOne_ok_elim st st2 s t h2
  have hprior : priorRevoked st = [] := by simp [priorRevoked, getCRL, h]
  rw [hprior] at hst2
  have hrd : removeDups ([] ++ [⟨s, t⟩]) = [⟨s, t⟩] := by simp [removeDups]
  rw [hrd] at hst2
  exact ⟨⟨⟨[⟨s, t⟩]⟩, ca.serial⟩, by rw [hst2], rfl⟩

/-- Witness for the amended C8: from a store failing with a generic
error, `RevokeOne` succeeds and the new CRL holds exactly the freshly
revoked entry. -/
theorem revokeOne_starts_empty_on_any_crl_error_witness :
    ∃ c, stAfterFailedStore.crl = CRLGet.ok c ∧
      c.tbsCertList.revokedCertificates = [⟨5, 2⟩] :=
  (revokeOne_starts_empty_on_any_crl_error stFailedStore 5 2 CRLErr.storeFailure rfl).2
    stAfterFailedStore (by decide)

end EasyRSA
